import Mathlib

set_option maxRecDepth 40000

/-!
Verification of the BOTSITE backend (src/miniapp_api.py) against its
natural-language specification.

Shallow embedding notes:
* Python strings are Lean `String` (sequences of Unicode code points, as in
  CPython); byte strings are `List Nat`.
* The SQLite store is a pair of row lists (`users`, `payments`); each SQL
  statement of the source is translated to the corresponding pure list
  transformation.  The schema declares `days_left INTEGER NOT NULL`, so the
  `COALESCE(days_left,0)` in the source's UPDATE statements is the identity
  and the column is embedded as `Int`.
* Python stdlib primitives that the source calls are at the model boundary:
  `urllib.parse.parse_qsl` and `hmac.new(key, msg, sha256).digest()` are
  taken as function parameters (the latter constrained only by its digest
  length, 32 bytes); `hmac.compare_digest` on the ASCII strings compared
  here is string equality; `json.loads` is applied by the callers of
  `verify_init_data`, so `verify_init_data` is embedded as returning the
  exact string the source passes to `json.loads`.
* CPython floats are IEEE binary64; they are embedded exactly as dyadic
  values (an integer mantissa times a power of two) with each arithmetic
  operation rounding its exact result to 53 significant bits, round to
  nearest, ties to even, as IEEE 754 prescribes.  Overflow is modelled
  faithfully: int-to-float conversion raises `OverflowError` when the
  rounded value reaches `2 ^ 1024`, float arithmetic overflows silently
  to a signed infinity, `round` of an infinity raises `OverflowError`
  and of a NaN raises `ValueError`.  Subnormals are unreachable in the
  pricing code (every nonzero finite intermediate has magnitude at least
  `0.05`) and the sign of a floating zero is unobservable through
  `round`, so zero is represented unsigned.
-/

/-! ## Generic string and list helpers -/

/-- Lexicographic comparison of code-point lists, the order CPython uses to
compare `str` values. -/
def charListLt : List Char → List Char → Bool
  | [], [] => false
  | [], _ :: _ => true
  | _ :: _, [] => false
  | a :: as, b :: bs => if a < b then true else if b < a then false else charListLt as bs

/-- String comparison by code points, as in CPython. -/
def strLt (s t : String) : Bool := charListLt s.data t.data

/-- Lowercase hex digit, as produced by Python's `hexdigest()`. -/
def hexChar (n : Nat) : Char := if n < 10 then Char.ofNat (48 + n) else Char.ofNat (87 + n)

/-- Hex encoding of a byte list, as in Python's `bytes.hex()` / `hexdigest()`. -/
def hexEncode (bs : List Nat) : String :=
  String.mk (bs.foldr (fun b acc => hexChar (b / 16) :: hexChar (b % 16) :: acc) [])

/-- UTF-8 encoding of one code point, as in CPython's `str.encode()`. -/
def utf8EncodeChar (c : Char) : List Nat :=
  let n := c.toNat
  if n < 128 then [n]
  else if n < 2048 then [192 + n / 64, 128 + n % 64]
  else if n < 65536 then [224 + n / 4096, 128 + (n / 64) % 64, 128 + n % 64]
  else [240 + n / 262144, 128 + (n / 4096) % 64, 128 + (n / 64) % 64, 128 + n % 64]

/-- UTF-8 encoding of a string, as in CPython's `str.encode()`. -/
def strBytes (s : String) : List Nat :=
  s.data.foldr (fun c acc => utf8EncodeChar c ++ acc) []

/-- Overwrite-or-append of one key/value pair, as one step of building a
CPython `dict` from an iterable of pairs: an existing key keeps its position
and receives the new value, a new key is appended. -/
def dictUpdate (d : List (String × String)) (k v : String) : List (String × String) :=
  if d.any (fun p => p.1 == k) then d.map (fun p => if p.1 == k then (k, v) else p)
  else d ++ [(k, v)]

/-- Embedding of `dict(pairs)` for a CPython iterable of key/value pairs:
later occurrences of a key overwrite earlier ones. -/
def dictOf (pairs : List (String × String)) : List (String × String) :=
  pairs.foldl (fun d kv => dictUpdate d kv.1 kv.2) []

/-- Key lookup in an association list built by `dictOf` (CPython `dict.get`). -/
def dictGet (d : List (String × String)) (k : String) : Option String :=
  match d.find? (fun p => p.1 == k) with
  | some p => some p.2
  | none => none

/-- Insertion step of a stable insertion sort on the key component. -/
def insertByKey (p : String × String) : List (String × String) → List (String × String)
  | [] => [p]
  | q :: qs => if strLt q.1 p.1 then q :: insertByKey p qs else p :: q :: qs

/-- Stable sort of key/value pairs by key.  The source applies
`sorted(data.items())` to the items of a `dict`, whose keys are distinct, so
sorting the pairs lexicographically (CPython tuple order) coincides with
sorting by key. -/
def sortPairs : List (String × String) → List (String × String)
  | [] => []
  | p :: ps => insertByKey p (sortPairs ps)

/-- Joining with a newline separator, as Python's `"\n".join`. -/
def joinLines : List String → String
  | [] => ""
  | [s] => s
  | s :: rest => s ++ "\n" ++ joinLines rest

/-! ## Authentication: `verify_init_data` (src/miniapp_api.py lines 152-166) -/

/-- Embedding of FastAPI's `HTTPException(status_code, detail)`. -/
structure HTTPException where
  status_code : Nat
  detail : String
  deriving DecidableEq

instance instDecEqExcept {ε α : Type} [DecidableEq ε] [DecidableEq α] :
    DecidableEq (Except ε α)
  | .error a, .error b =>
    match decEq a b with
    | isTrue h => isTrue (by rw [h])
    | isFalse h => isFalse (by intro hc; cases hc; exact h rfl)
  | .error _, .ok _ => isFalse (by intro hc; cases hc)
  | .ok _, .error _ => isFalse (by intro hc; cases hc)
  | .ok a, .ok b =>
    match decEq a b with
    | isTrue h => isTrue (by rw [h])
    | isFalse h => isFalse (by intro hc; cases hc; exact h rfl)

/-- Removal of the `hash` entry from the parsed payload, the effect of
`data.pop('hash', None)` on the dictionary. -/
def stripHash (d : List (String × String)) : List (String × String) :=
  d.filter (fun p => p.1 != "hash")

/-- Embedding of the source's
`"\n".join(f"k=v" for k,v in sorted(data.items()))` canonical check-string. -/
def dataCheckString (data : List (String × String)) : String :=
  joinLines ((sortPairs data).map (fun p => p.1 ++ "=" ++ p.2))

/-- Embedding of the source's signature pipeline:
`secret_key = hmac.new(b"WebAppData", BOT_TOKEN.encode(), sha256).digest()`
then `hmac.new(secret_key, data_check_string.encode(), sha256).hexdigest()`.
The HMAC-SHA256 digest primitive `hm : key → msg → digest bytes` is a
parameter of the embedding. -/
def computedHash (hm : List Nat → List Nat → List Nat) (bot_token : String)
    (data : List (String × String)) : String :=
  hexEncode (hm (hm (strBytes "WebAppData") (strBytes bot_token)) (strBytes (dataCheckString data)))

/-- Embedding of the argument of `json.loads` in the source's
`user = json.loads(data.get("user", "\x7b\x7d") or "\x7b\x7d")`:
a missing or empty `user` field falls back to the text of the empty JSON
object. -/
def userField (data : List (String × String)) : String :=
  match dictGet data "user" with
  | none => "\x7b\x7d"
  | some s => if s = "" then "\x7b\x7d" else s

/-- Embedding of `verify_init_data` (src/miniapp_api.py lines 152-166).
`pq` is the stdlib `parse_qsl(·, keep_blank_values=True)` and `hm` the
HMAC-SHA256 digest primitive.  The source's `data.pop('hash', None)` is
rendered as `dictGet · "hash"` for the popped value and `stripHash` for the
remaining dictionary; `if not hash_recv:` is the `none` branch together with
the empty-string test; `hmac.compare_digest` on these ASCII strings is
string equality.  On success the source returns
`json.loads(data.get("user", "\x7b\x7d") or "\x7b\x7d")`; the embedding
returns the string passed to `json.loads`. -/
def verify_init_data (pq : String → List (String × String))
    (hm : List Nat → List Nat → List Nat)
    (bot_token init_data : String) : Except HTTPException String :=
  if init_data = "" then .error ⟨401, "no initData"⟩
  else
    match dictGet (dictOf (pq init_data)) "hash" with
    | none => .error ⟨401, "no hash"⟩
    | some hash_recv =>
      if hash_recv = "" then .error ⟨401, "no hash"⟩
      else if computedHash hm bot_token (stripHash (dictOf (pq init_data))) = hash_recv then
        .ok (userField (stripHash (dictOf (pq init_data))))
      else .error ⟨401, "bad signature"⟩

/-- Discriminator for failure of an API call. -/
def isErr {ε α : Type} : Except ε α → Bool
  | .error _ => true
  | .ok _ => false

/-! ## Pricing: `calc_amount` (src/miniapp_api.py lines 34-38) -/

def bitLenF : Nat → Nat → Nat
  | 0, _ => 0
  | fuel + 1, n => if n = 0 then 0 else bitLenF fuel (n / 2) + 1

/-- Number of binary digits of a natural number. -/
def bitLen (n : Nat) : Nat := bitLenF n n

/-- Dyadic value `m * 2 ^ e`: the exact value of an IEEE binary64 float in
the range exercised by the source (no overflow or subnormals). -/
structure Dyadic where
  m : ℤ
  e : ℤ
  deriving DecidableEq

/-- Round-to-nearest, ties-to-even selection between a truncated quotient
`q` and `q + 1`, given `r2` twice the remainder and `den` the divisor. -/
def rne (q r2 den : Nat) : Nat :=
  if r2 < den then q else if den < r2 then q + 1 else if q % 2 = 0 then q else q + 1

/-- Rounding of an exact dyadic value to 53 significant bits (IEEE binary64
round-to-nearest, ties to even). -/
def fl (x : Dyadic) : Dyadic :=
  if x.m = 0 then ⟨0, 0⟩
  else
    let n := x.m.natAbs
    let L := bitLen n
    if L ≤ 53 then x
    else
      let k := L - 53
      let q := rne (n / 2 ^ k) (2 * (n % 2 ^ k)) (2 ^ k)
      ⟨if x.m < 0 then -(q : ℤ) else (q : ℤ), x.e + k⟩

/-- Correctly rounded binary64 value of `(p / q) * 2 ^ d` for naturals
`p`, `q`. -/
def flRatio (p q : Nat) (d : ℤ) : Dyadic :=
  if p = 0 ∨ q = 0 then ⟨0, 0⟩
  else
    let shift := 53 + bitLen q
    let t := p * 2 ^ shift
    let n0 := t / q
    let r0 := t % q
    let k := bitLen n0 - 53
    let q1 := rne (n0 / 2 ^ k) (2 * ((n0 % 2 ^ k) * q + r0)) (q * 2 ^ k)
    ⟨(q1 : ℤ), d - shift + k⟩

/-- Exact product of dyadic values. -/
def dmul (a b : Dyadic) : Dyadic := ⟨a.m * b.m, a.e + b.e⟩

/-- Exact difference of dyadic values. -/
def dsub (a b : Dyadic) : Dyadic :=
  if a.e ≤ b.e then ⟨a.m - b.m * 2 ^ (b.e - a.e).toNat, a.e⟩
  else ⟨a.m * 2 ^ (a.e - b.e).toNat - b.m, b.e⟩

/-- IEEE binary64 division of finite values by a nonzero finite value:
the exact quotient, rounded.  The source divides only by the nonzero
program constant `30.0`, so the zero-divisor error path of CPython is not
reachable at its one call site. -/
def flDiv (a b : Dyadic) : Dyadic :=
  let r := flRatio a.m.natAbs b.m.natAbs (a.e - b.e)
  if (a.m < 0 ∧ 0 < b.m) ∨ (0 < a.m ∧ b.m < 0) then ⟨-r.m, r.e⟩ else r

/-- Decides whether a rounded dyadic value lies beyond the largest finite
binary64 magnitude, i.e. whether `|m| * 2 ^ e ≥ 2 ^ 1024`. -/
def dyadicOverflows (x : Dyadic) : Bool :=
  if 0 ≤ x.e then 2 ^ 1024 ≤ x.m.natAbs * 2 ^ x.e.toNat
  else 2 ^ 1024 * 2 ^ (-x.e).toNat ≤ x.m.natAbs

/-- Exceptions CPython can raise on the float paths of the source:
`OverflowError` (an int too large to convert to float, or converting an
infinity to an integer) and `ValueError` (converting a NaN to an
integer). -/
inductive PyError where
  | overflowError
  | valueError
  deriving DecidableEq

/-- Value of a CPython float expression: a finite binary64 value, a signed
infinity (float arithmetic overflows silently to infinity), or a NaN. -/
inductive PyFloat where
  | finite (d : Dyadic)
  | inf (neg : Bool)
  | nan
  deriving DecidableEq

/-- CPython `float(i)` conversion of an integer: rounds to nearest, ties to
even, and raises `OverflowError` when the rounded value reaches
`2 ^ 1024` (CPython `PyLong_AsDouble`). -/
def flInt (i : ℤ) : Except PyError Dyadic :=
  let r := fl ⟨i, 0⟩
  if dyadicOverflows r then .error .overflowError else .ok r

/-- CPython float multiplication: the exact product rounded, overflowing
silently to a signed infinity; `0 * inf` is NaN and NaN propagates. -/
def pymul : PyFloat → PyFloat → PyFloat
  | .nan, _ => .nan
  | _, .nan => .nan
  | .finite a, .finite b =>
    let r := fl (dmul a b)
    if dyadicOverflows r then .inf (decide (r.m < 0)) else .finite r
  | .finite a, .inf s => if a.m = 0 then .nan else .inf (Bool.xor s (decide (a.m < 0)))
  | .inf s, .finite a => if a.m = 0 then .nan else .inf (Bool.xor s (decide (a.m < 0)))
  | .inf s, .inf t => .inf (Bool.xor s t)

/-- CPython float subtraction: the exact difference rounded, overflowing
silently to a signed infinity; `inf - inf` of equal signs is NaN and NaN
propagates. -/
def pysub : PyFloat → PyFloat → PyFloat
  | .nan, _ => .nan
  | _, .nan => .nan
  | .finite a, .finite b =>
    let r := fl (dsub a b)
    if dyadicOverflows r then .inf (decide (r.m < 0)) else .finite r
  | .inf s, .finite _ => .inf s
  | .finite _, .inf s => .inf (!s)
  | .inf s, .inf t => if s == t then .nan else .inf s

/-- CPython `round(x)` on a float with no digits argument:
round-half-to-even of the exact value of a finite double, yielding an
integer; `round` of an infinity raises `OverflowError` and `round` of a
NaN raises `ValueError`. -/
def roundToInt (x : Dyadic) : ℤ :=
  if 0 ≤ x.e then x.m * 2 ^ x.e.toNat
  else
    let k := (-x.e).toNat
    let n := x.m.natAbs
    let q := rne (n / 2 ^ k) (2 * (n % 2 ^ k)) (2 ^ k)
    if x.m < 0 then -(q : ℤ) else (q : ℤ)

/-- CPython `round(x)` on any float value (see `roundToInt`). -/
def pyround : PyFloat → Except PyError ℤ
  | .finite d => .ok (roundToInt d)
  | .inf _ => .error .overflowError
  | .nan => .error .valueError

/-- Source constant `BASE_PRICE_30 = 75` (src/miniapp_api.py line 18). -/
def BASE_PRICE_30 : ℤ := 75

/-- Source discount table (line 19): the float literals `0.00`, `0.05`,
`0.10` denote the binary64 values nearest to those decimals; the source's
`DISCOUNT_BY_DAYS.get(days, 0.0)` yields `0.0` for any other key. -/
def DISCOUNT_BY_DAYS (days : ℤ) : Dyadic :=
  if days = 30 then ⟨0, 0⟩
  else if days = 60 then flRatio 5 100 0
  else if days = 90 then flRatio 10 100 0
  else ⟨0, 0⟩

/-- Embedding of `calc_amount` (src/miniapp_api.py lines 34-38), with every
float operation of the source performed in exact binary64 semantics:
`per_day = BASE_PRICE_30 / 30.0`, `subtotal = per_day * days * seats`,
`disc = DISCOUNT_BY_DAYS.get(days, 0.0)`, and
`return int(round(subtotal * (1.0 - disc)))`.  The int-to-float
conversions of `days` and `seats` can raise `OverflowError`, in the
source's evaluation order (`days` before `seats`, both inside the
`subtotal` expression before any multiplication result is rounded to an
integer); float multiplications overflow silently to infinity, and the
final `round` raises on an infinite or NaN subtotal.  `int(...)` of the
integer returned by `round` is the identity. -/
def calc_amount (days seats : ℤ) : Except PyError ℤ :=
  match flInt BASE_PRICE_30 with
  | .error e => .error e
  | .ok pd75 =>
    let per_day : PyFloat := .finite (flDiv pd75 ⟨30, 0⟩)
    match flInt days with
    | .error e => .error e
    | .ok fdays =>
      match flInt seats with
      | .error e => .error e
      | .ok fseats =>
        let subtotal := pymul (pymul per_day (.finite fdays)) (.finite fseats)
        let disc := DISCOUNT_BY_DAYS days
        pyround (pymul subtotal (pysub (.finite ⟨1, 0⟩) (.finite disc)))

/-- Round-half-to-even of a rational to an integer, the claim's reading of
Python's `round`. -/
def roundHalfEvenQ (q : ℚ) : ℤ :=
  if q - ⌊q⌋ < 1/2 then ⌊q⌋
  else if (1/2 : ℚ) < q - ⌊q⌋ then ⌊q⌋ + 1
  else if ⌊q⌋ % 2 = 0 then ⌊q⌋ else ⌊q⌋ + 1

/-- Discount table of the claim, as exact rationals. -/
def specDiscount (days : ℤ) : ℚ :=
  if days = 30 then 0 else if days = 60 then 5/100 else if days = 90 then 10/100 else 0

/-- Formula asserted by the claim for `calc_amount`, in exact rational
arithmetic: `round((75/30) * days * seats * (1 - discount))` with
round-half-to-even.  Stated from the specification's words, for comparison
with the source's float computation `calc_amount`. -/
def calcAmountSpec (days seats : ℤ) : ℤ :=
  roundHalfEvenQ ((75 / 30 : ℚ) * days * seats * (1 - specDiscount days))

/-! ## Relational store (tables `users` and `payments`) -/

/-- Row of the `users` table (schema at src/miniapp_api.py lines 43-56). -/
structure User where
  user_id : ℤ
  username : Option String
  days_left : ℤ
  reminder_sent3 : ℤ
  user_comment : Option String
  seats_default : ℤ
  expired_since : Option String
  is_admin : ℤ
  created_at : String
  updated_at : String
  deriving DecidableEq

/-- Row of the `payments` table (schema at lines 71-82). -/
structure Payment where
  payment_id : ℤ
  user_id : ℤ
  days : ℤ
  seats : ℤ
  amount : ℤ
  status : String
  comment : Option String
  created_at : String
  deriving DecidableEq

/-- State of the SQLite database `vpn_bot.db`. -/
structure DB where
  users : List User
  payments : List Payment
  deriving DecidableEq

/-- Embedding of `get_user` (lines 63-66): `SELECT * FROM users WHERE
user_id=?` with `fetchone()`, the first matching row. -/
def get_user (db : DB) (uid : ℤ) : Option User :=
  db.users.find? (fun u => u.user_id == uid)

/-- Embedding of `get_or_create_user` (lines 40-61):
`INSERT INTO users(user_id, username) VALUES(?,?) ON CONFLICT(user_id) DO
UPDATE SET username=excluded.username, updated_at=datetime('now')`.
`now` stands for `datetime('now')`; a fresh row receives the schema
defaults: `days_left` 0, `reminder_sent3` 0, `seats_default` 1, `is_admin`
0, NULL comment and expiry, both timestamps `now`. -/
def get_or_create_user (db : DB) (uid : ℤ) (username : Option String) (now : String) : DB :=
  if db.users.any (fun u => u.user_id == uid) then
    { db with users := db.users.map (fun u =>
        if u.user_id = uid then { u with username := username, updated_at := now } else u) }
  else
    { db with users := db.users ++ [⟨uid, username, 0, 0, none, 1, none, 0, now, now⟩] }

/-- Embedding of `add_days` (lines 111-113):
`UPDATE users SET days_left=MAX(0, COALESCE(days_left,0))+? WHERE user_id=?`
(`COALESCE` is the identity on the NOT NULL column). -/
def add_days (db : DB) (uid days : ℤ) : DB :=
  { db with users := db.users.map (fun u =>
      if u.user_id = uid then { u with days_left := max 0 u.days_left + days } else u) }

/-- Embedding of `sub_days` (lines 115-117):
`UPDATE users SET days_left=MAX(0, COALESCE(days_left,0))-? WHERE user_id=?`. -/
def sub_days (db : DB) (uid days : ℤ) : DB :=
  { db with users := db.users.map (fun u =>
      if u.user_id = uid then { u with days_left := max 0 u.days_left - days } else u) }

/-- Latest row of a list of payment rows by `payment_id`: the row produced
by `ORDER BY payment_id DESC LIMIT 1`. -/
def maxByPid : List Payment → Option Payment
  | [] => none
  | p :: ps =>
    match maxByPid ps with
    | none => some p
    | some q => if p.payment_id < q.payment_id then some q else some p

/-- Embedding of `confirm_last_payment` (lines 97-109):
`SELECT ... FROM payments WHERE user_id=? AND status='pending' ORDER BY
payment_id DESC LIMIT 1`; if no row, return `False`; else
`UPDATE payments SET status='paid' WHERE payment_id=?` and
`UPDATE users SET days_left=MAX(0, COALESCE(days_left,0))+? WHERE
user_id=?`, returning `True`. -/
def confirm_last_payment (db : DB) (uid : ℤ) : DB × Bool :=
  match maxByPid (db.payments.filter (fun p => p.user_id == uid && p.status == "pending")) with
  | none => (db, false)
  | some r =>
    ({ users := db.users.map (fun u =>
          if u.user_id = uid then { u with days_left := max 0 u.days_left + r.days } else u),
       payments := db.payments.map (fun p =>
          if p.payment_id = r.payment_id then { p with status := "paid" } else p) }, true)

/-- Bootstrap administrator allow-list hardcoded in `ensure_admin`
(line 228). -/
def BOOTSTRAP_ADMINS : List ℤ := [251385778]

/-- Embedding of `ensure_admin` (lines 226-229): `row = get_user(uid)`,
`is_admin = row and (row["is_admin"]==1 or uid in ...)`,
`if not is_admin: raise HTTPException(403, "forbidden")`. -/
def ensure_admin (db : DB) (uid : ℤ) : Except HTTPException Unit :=
  let is_admin : Bool :=
    match get_user db uid with
    | none => false
    | some row => row.is_admin == 1 || decide (uid ∈ BOOTSTRAP_ADMINS)
  if is_admin then .ok () else .error ⟨403, "forbidden"⟩


/-! ## Supporting lemmas -/

theorem hexEncode_ne_empty {bs : List Nat} (h : bs ≠ []) : hexEncode bs ≠ "" := by
  cases bs with
  | nil => exact absurd rfl h
  | cons b t =>
    intro hc
    have hdata : (hexEncode (b :: t)).data = ("" : String).data := by rw [hc]
    simp [hexEncode] at hdata

/-- Updating the rows of a user list at a fixed `user_id` commutes with
`find?` on that `user_id`, provided the update preserves `user_id`. -/
theorem find?_update_user (l : List User) (uid : ℤ) (f : User → User)
    (hf : ∀ v, (f v).user_id = v.user_id) :
    (l.map (fun v => if v.user_id = uid then f v else v)).find? (fun v => v.user_id == uid)
      = (l.find? (fun v => v.user_id == uid)).map (fun v => if v.user_id = uid then f v else v) := by
  induction l with
  | nil => rfl
  | cons v t ih =>
    by_cases h : v.user_id = uid
    · simp [h, hf]
    · simp [h, ih]

theorem maxByPid_eq_none {l : List Payment} : maxByPid l = none ↔ l = [] := by
  cases l with
  | nil => simp [maxByPid]
  | cons p ps =>
    simp only [maxByPid]
    cases maxByPid ps with
    | none => simp
    | some q => by_cases h : p.payment_id < q.payment_id <;> simp [h]

theorem maxByPid_mem {l : List Payment} {p : Payment} (h : maxByPid l = some p) : p ∈ l := by
  induction l generalizing p with
  | nil => cases h
  | cons a t ih =>
    cases hm : maxByPid t with
    | none =>
      simp only [maxByPid, hm] at h
      cases h
      exact List.mem_cons_self _ _
    | some q =>
      simp only [maxByPid, hm] at h
      by_cases hlt : a.payment_id < q.payment_id
      · rw [if_pos hlt] at h
        cases h
        exact List.mem_cons_of_mem _ (ih hm)
      · rw [if_neg hlt] at h
        cases h
        exact List.mem_cons_self _ _

theorem maxByPid_max {l : List Payment} {p : Payment} (h : maxByPid l = some p) :
    ∀ q ∈ l, q.payment_id ≤ p.payment_id := by
  induction l generalizing p with
  | nil => cases h
  | cons a t ih =>
    intro q hq
    cases hm : maxByPid t with
    | none =>
      have ht : t = [] := maxByPid_eq_none.mp hm
      simp only [maxByPid, hm] at h
      cases h
      rw [ht] at hq
      rcases List.mem_singleton.mp hq with rfl
      exact le_refl _
    | some m =>
      simp only [maxByPid, hm] at h
      rcases List.mem_cons.mp hq with rfl | hqt
      · by_cases hlt : q.payment_id < m.payment_id
        · rw [if_pos hlt] at h; cases h; exact le_of_lt hlt
        · rw [if_neg hlt] at h; cases h; exact le_refl _
      · by_cases hlt : a.payment_id < m.payment_id
        · rw [if_pos hlt] at h; cases h; exact ih hm q hqt
        · rw [if_neg hlt] at h
          cases h
          exact (ih hm q hqt).trans (not_lt.mp hlt)


/-! ## Claim C4: `add_days` / `sub_days` -/

/-- C4: for every existing user and every delta, `add_days` sets `days_left`
to `max 0 old + delta` and `sub_days` sets it to `max 0 old - delta`; no
floor is applied to the result. -/
theorem c4_add_sub_days (db : DB) (uid delta : ℤ) (u : User)
    (hu : get_user db uid = some u) :
    get_user (add_days db uid delta) uid = some { u with days_left := max 0 u.days_left + delta }
    ∧ get_user (sub_days db uid delta) uid
        = some { u with days_left := max 0 u.days_left - delta } := by
  have hu' : db.users.find? (fun v => v.user_id == uid) = some u := hu
  have huid : u.user_id = uid := by simpa using List.find?_some hu'
  constructor
  · show (db.users.map (fun v =>
        if v.user_id = uid then { v with days_left := max 0 v.days_left + delta } else v)).find?
          (fun v => v.user_id == uid) = _
    rw [find?_update_user db.users uid
      (fun v => { v with days_left := max 0 v.days_left + delta }) (fun v => rfl), hu']
    simp [huid]
  · show (db.users.map (fun v =>
        if v.user_id = uid then { v with days_left := max 0 v.days_left - delta } else v)).find?
          (fun v => v.user_id == uid) = _
    rw [find?_update_user db.users uid
      (fun v => { v with days_left := max 0 v.days_left - delta }) (fun v => rfl), hu']
    simp [huid]

/-- Sample user with a negative balance. -/
def uNeg : User := ⟨1, some "alice", -5, 0, none, 1, none, 0, "t0", "t0"⟩

/-- Sample user with a small positive balance. -/
def uTwo : User := ⟨2, some "bob", 2, 0, none, 1, none, 0, "t0", "t0"⟩

/-- Sample database for the balance-mutation witnesses. -/
def dbBal : DB := ⟨[uNeg, uTwo], []⟩

/-- C4 counterexample: the claim asserts that `add_days` from balance `-5`
with delta `10` yields `5`, but the code's own clamped rule
`max(0, old) + delta` yields `max(0,-5) + 10 = 10` there. -/
theorem c4_counterexample :
    (get_user (add_days dbBal 1 10) 1).map User.days_left = some 10
    ∧ (get_user (add_days dbBal 1 10) 1).map User.days_left ≠ some 5 := by
  decide

/-- C4 witness: `add_days` from balance `-5` with delta `10` yields `10`;
`sub_days` from balance `2` with delta `3` yields `-1`. -/
theorem c4_witness :
    (get_user (add_days dbBal 1 10) 1).map User.days_left = some 10
    ∧ (get_user (sub_days dbBal 2 3) 2).map User.days_left = some (-1) := by
  constructor
  · rw [(c4_add_sub_days dbBal 1 10 uNeg (by decide)).1]; decide
  · rw [(c4_add_sub_days dbBal 2 3 uTwo (by decide)).2]; decide

/-! ## Claim C5: `get_or_create_user` -/

/-- C5: `get_or_create_user` inserts a fresh row with `days_left = 0` when
no row exists; when a row exists it changes only `username` and
`updated_at` of that row (every other field, in particular `days_left` and
`is_admin`, is kept) and leaves every other row unchanged. -/
theorem c5_get_or_create (db : DB) (uid : ℤ) (username : Option String) (now : String) :
    (get_user db uid = none →
      get_user (get_or_create_user db uid username now) uid
        = some ⟨uid, username, 0, 0, none, 1, none, 0, now, now⟩)
    ∧ (∀ u, get_user db uid = some u →
      get_user (get_or_create_user db uid username now) uid
          = some { u with username := username, updated_at := now }
      ∧ ∀ v ∈ db.users, v.user_id ≠ uid → v ∈ (get_or_create_user db uid username now).users) := by
  constructor
  · intro hnone
    have hnone' : db.users.find? (fun v => v.user_id == uid) = none := hnone
    have hany : db.users.any (fun v => v.user_id == uid) = false := by
      rw [List.any_eq_false]
      intro v hv
      simp only [Bool.not_eq_true]
      cases hb : (v.user_id == uid) with
      | false => rfl
      | true => exact absurd hb (List.find?_eq_none.mp hnone' v hv)
    unfold get_or_create_user
    rw [if_neg (by simp [hany])]
    show (db.users ++ [(⟨uid, username, 0, 0, none, 1, none, 0, now, now⟩ : User)]).find?
        (fun v => v.user_id == uid) = _
    rw [List.find?_append, hnone']
    simp
  · intro u hu
    have hu' : db.users.find? (fun v => v.user_id == uid) = some u := hu
    have huid : u.user_id = uid := by simpa using List.find?_some hu'
    have hany : db.users.any (fun v => v.user_id == uid) = true := by
      rw [List.any_eq_true]
      exact ⟨u, List.mem_of_find?_eq_some hu', by simp [huid]⟩
    constructor
    · unfold get_or_create_user
      rw [if_pos (by simp [hany])]
      show (db.users.map (fun v =>
          if v.user_id = uid then { v with username := username, updated_at := now } else v)).find?
            (fun v => v.user_id == uid) = _
      rw [find?_update_user db.users uid
        (fun v => { v with username := username, updated_at := now }) (fun v => rfl), hu']
      simp [huid]
    · intro v hv hvne
      unfold get_or_create_user
      rw [if_pos (by simp [hany])]
      exact List.mem_map.mpr ⟨v, hv, by rw [if_neg hvne]⟩

/-- Empty database. -/
def dbEmpty : DB := ⟨[], []⟩

/-- C5 witness: creation inserts a zero-balance row; a second call with a
different username only renames the existing row (balance `-5` survives). -/
theorem c5_witness :
    get_user (get_or_create_user dbEmpty 7 (some "alice") "t1") 7
      = some ⟨7, some "alice", 0, 0, none, 1, none, 0, "t1", "t1"⟩
    ∧ get_user (get_or_create_user dbBal 1 (some "carol") "t2") 1
      = some { uNeg with username := some "carol", updated_at := "t2" } :=
  ⟨(c5_get_or_create dbEmpty 7 (some "alice") "t1").1 (by decide),
   ((c5_get_or_create dbBal 1 (some "carol") "t2").2 uNeg (by decide)).1⟩

/-! ## Claims C6 and C10: `ensure_admin` -/

/-- C6: `ensure_admin` fails with Forbidden (403) unless the stored row's
`is_admin` flag is 1 or the user id is in the bootstrap allow-list; a
user id in the allow-list whose stored row has `is_admin = 0` passes. -/
theorem c6_ensure_admin (db : DB) (uid : ℤ) :
    ((¬ ∃ r, get_user db uid = some r ∧ r.is_admin = 1) → uid ∉ BOOTSTRAP_ADMINS →
      ensure_admin db uid = .error ⟨403, "forbidden"⟩)
    ∧ (∀ r, get_user db uid = some r → r.is_admin = 0 → uid ∈ BOOTSTRAP_ADMINS →
      ensure_admin db uid = .ok ()) := by
  constructor
  · intro hnadm hnlist
    cases hg : get_user db uid with
    | none => simp [ensure_admin, hg]
    | some r =>
      have h1 : r.is_admin ≠ 1 := fun hc => hnadm ⟨r, hg, hc⟩
      simp [ensure_admin, hg, h1, hnlist]
  · intro r hg hadm hmem
    simp [ensure_admin, hg, hmem]

/-- Row for the bootstrap administrator, with the stored flag cleared. -/
def uBoot : User := ⟨251385778, some "root", 0, 0, none, 1, none, 0, "t0", "t0"⟩

/-- Database for the admin-gate witnesses. -/
def dbAdm : DB := ⟨[uBoot, uTwo], []⟩

/-- C6 witness: the allow-listed id passes with `is_admin = 0` in storage;
an ordinary user is rejected with 403. -/
theorem c6_witness :
    ensure_admin dbAdm 251385778 = .ok ()
    ∧ ensure_admin dbAdm 2 = .error ⟨403, "forbidden"⟩ := by
  constructor
  · exact (c6_ensure_admin dbAdm 251385778).2 uBoot (by decide) (by decide) (by decide)
  · refine (c6_ensure_admin dbAdm 2).1 ?_ (by decide)
    rintro ⟨r, hr, hadm⟩
    have h2 : get_user dbAdm 2 = some uTwo := by decide
    rw [h2] at hr
    cases hr
    exact absurd hadm (by decide)

/-- C10: with no stored row, `ensure_admin` fails with Forbidden even for an
allow-listed id; passing requires an existing row. -/
theorem c10_ensure_admin_requires_row (db : DB) (uid : ℤ) :
    (get_user db uid = none → ensure_admin db uid = .error ⟨403, "forbidden"⟩)
    ∧ (ensure_admin db uid = .ok () → ∃ r, get_user db uid = some r) := by
  constructor
  · intro hg
    simp [ensure_admin, hg]
  · intro hok
    cases hg : get_user db uid with
    | some r => exact ⟨r, rfl⟩
    | none => simp [ensure_admin, hg] at hok

/-- C10 witness: the bootstrap administrator id itself is rejected when the
store has no row for it. -/
theorem c10_witness :
    ensure_admin dbEmpty 251385778 = .error ⟨403, "forbidden"⟩ :=
  (c10_ensure_admin_requires_row dbEmpty 251385778).1 (by decide)

/-! ## Claim C3: `confirm_last_payment` -/

/-- C3: with no pending payment for the user, `confirm_last_payment`
returns `false` and leaves the database unchanged; otherwise it marks
exactly the pending payment of that user with the greatest `payment_id` as
paid, leaves every other payment (including older pending ones) unchanged,
credits that payment's `days` to the user's balance by `max 0 old + days`,
leaves every other user unchanged, and returns `true`.  The `Nodup`
hypothesis is the PRIMARY KEY constraint of the `payments` schema. -/
theorem c3_confirm_last (db : DB) (uid : ℤ)
    (hpk : (db.payments.map Payment.payment_id).Nodup)
    (u : User) (hu : get_user db uid = some u) :
    ((∀ p ∈ db.payments, ¬(p.user_id = uid ∧ p.status = "pending")) →
      confirm_last_payment db uid = (db, false))
    ∧ (∀ p0 ∈ db.payments, p0.user_id = uid → p0.status = "pending" →
      ∃ pm, pm ∈ db.payments ∧ pm.user_id = uid ∧ pm.status = "pending"
        ∧ (∀ q ∈ db.payments, q.user_id = uid → q.status = "pending" →
            q.payment_id ≤ pm.payment_id)
        ∧ (confirm_last_payment db uid).2 = true
        ∧ (confirm_last_payment db uid).1.payments
            = db.payments.map (fun p =>
                if p.payment_id = pm.payment_id then { p with status := "paid" } else p)
        ∧ { pm with status := "paid" } ∈ (confirm_last_payment db uid).1.payments
        ∧ (∀ q ∈ db.payments, q.payment_id ≠ pm.payment_id →
            q ∈ (confirm_last_payment db uid).1.payments)
        ∧ get_user (confirm_last_payment db uid).1 uid
            = some { u with days_left := max 0 u.days_left + pm.days }
        ∧ (∀ v ∈ db.users, v.user_id ≠ uid → v ∈ (confirm_last_payment db uid).1.users)) := by
  constructor
  · intro hno
    have hfil : db.payments.filter (fun p => p.user_id == uid && p.status == "pending") = [] := by
      rw [List.filter_eq_nil_iff]
      intro p hp hb
      simp only [Bool.and_eq_true, beq_iff_eq] at hb
      exact hno p hp hb
    unfold confirm_last_payment
    rw [hfil]
    rfl
  · intro p0 hp0 hpu hps
    have hp0f : p0 ∈ db.payments.filter (fun p => p.user_id == uid && p.status == "pending") := by
      rw [List.mem_filter]
      exact ⟨hp0, by simp [hpu, hps]⟩
    cases hmax : maxByPid (db.payments.filter (fun p => p.user_id == uid && p.status == "pending")) with
    | none =>
      rw [maxByPid_eq_none] at hmax
      rw [hmax] at hp0f
      exact absurd hp0f (List.not_mem_nil p0)
    | some r =>
      have hrmem := maxByPid_mem hmax
      have hrfil := List.mem_filter.mp hrmem
      have hrprops : r.user_id = uid ∧ r.status = "pending" := by
        have h2 := hrfil.2
        simpa using h2
      have hrmax : ∀ q ∈ db.payments, q.user_id = uid → q.status = "pending" →
          q.payment_id ≤ r.payment_id := by
        intro q hq hq1 hq2
        exact maxByPid_max hmax q (List.mem_filter.mpr ⟨hq, by simp [hq1, hq2]⟩)
      have hconf : confirm_last_payment db uid
          = ({ users := db.users.map (fun v =>
                if v.user_id = uid then { v with days_left := max 0 v.days_left + r.days } else v),
               payments := db.payments.map (fun p =>
                if p.payment_id = r.payment_id then { p with status := "paid" } else p) }, true) := by
        unfold confirm_last_payment
        rw [hmax]
      refine ⟨r, hrfil.1, hrprops.1, hrprops.2, hrmax, ?_, ?_, ?_, ?_, ?_, ?_⟩
      · rw [hconf]
      · rw [hconf]
      · rw [hconf]
        exact List.mem_map.mpr ⟨r, hrfil.1, by rw [if_pos rfl]⟩
      · intro q hq hqne
        rw [hconf]
        exact List.mem_map.mpr ⟨q, hq, by rw [if_neg hqne]⟩
      · rw [hconf]
        have hu' : db.users.find? (fun v => v.user_id == uid) = some u := hu
        have huid : u.user_id = uid := by simpa using List.find?_some hu'
        show (db.users.map (fun v =>
            if v.user_id = uid then { v with days_left := max 0 v.days_left + r.days } else v)).find?
              (fun v => v.user_id == uid) = _
        rw [find?_update_user db.users uid
          (fun v => { v with days_left := max 0 v.days_left + r.days }) (fun v => rfl), hu']
        simp [huid]
      · intro v hv hvne
        rw [hconf]
        exact List.mem_map.mpr ⟨v, hv, by rw [if_neg hvne]⟩

/-- Paid payment row for the confirmation witness. -/
def payPaid : Payment := ⟨9, 2, 30, 1, 75, "paid", none, "t1"⟩

/-- Database whose only payment is already paid. -/
def dbNoPending : DB := ⟨[uTwo], [payPaid]⟩

/-- C3 witness: with no pending payment the call returns `false` and the
database is untouched. -/
theorem c3_witness : confirm_last_payment dbNoPending 2 = (dbNoPending, false) :=
  (c3_confirm_last dbNoPending 2 (by decide) uTwo (by decide)).1 (by decide)

/-! ## Claims C1, C2, C9: `verify_init_data` -/

/-- With a valid signature, `verify_init_data` succeeds and returns the
`user` field of the remaining dictionary (the string handed to
`json.loads`). -/
theorem verify_ok_of_valid (pq : String → List (String × String))
    (hm : List Nat → List Nat → List Nat) (bot_token raw : String)
    (hLen : ∀ k msg, (hm k msg).length = 32)
    (hraw : raw ≠ "") (h : String)
    (hHash : dictGet (dictOf (pq raw)) "hash" = some h)
    (hSig : h = computedHash hm bot_token (stripHash (dictOf (pq raw)))) :
    verify_init_data pq hm bot_token raw
      = .ok (userField (stripHash (dictOf (pq raw)))) := by
  have hmne : hm (hm (strBytes "WebAppData") (strBytes bot_token))
      (strBytes (dataCheckString (stripHash (dictOf (pq raw))))) ≠ [] := by
    intro hnil
    have hl := hLen (hm (strBytes "WebAppData") (strBytes bot_token))
      (strBytes (dataCheckString (stripHash (dictOf (pq raw)))))
    rw [hnil] at hl
    exact absurd hl (by decide)
  have hne : computedHash hm bot_token (stripHash (dictOf (pq raw))) ≠ "" :=
    hexEncode_ne_empty hmne
  have hhne : h ≠ "" := by rw [hSig]; exact hne
  simp only [verify_init_data, if_neg hraw, hHash]
  rw [if_neg hhne, if_pos hSig.symm]

/-- C1: for every payload whose `hash` field equals the hex HMAC-SHA256
(keyed by the secret derived from the bot secret under the key
"WebAppData") of the sorted key=value check-string of the remaining
fields, `verify_init_data` succeeds and returns the payload's `user` field
(the string the source hands to `json.loads` to produce the identity); and
for any such valid payload, changing any single character of the `hash`
field makes verification fail with 401 "bad signature". -/
theorem c1_verify_valid (pq : String → List (String × String))
    (hm : List Nat → List Nat → List Nat) (bot_token raw : String)
    (hLen : ∀ k msg, (hm k msg).length = 32)
    (hraw : raw ≠ "") (h : String)
    (hHash : dictGet (dictOf (pq raw)) "hash" = some h)
    (hSig : h = computedHash hm bot_token (stripHash (dictOf (pq raw)))) :
    verify_init_data pq hm bot_token raw = .ok (userField (stripHash (dictOf (pq raw))))
    ∧ (∀ raw2 h2 pre c c2 suf, raw2 ≠ "" →
        dictGet (dictOf (pq raw2)) "hash" = some h2 →
        stripHash (dictOf (pq raw2)) = stripHash (dictOf (pq raw)) →
        h.data = pre ++ c :: suf → h2.data = pre ++ c2 :: suf → c ≠ c2 →
        verify_init_data pq hm bot_token raw2 = .error ⟨401, "bad signature"⟩) := by
  refine ⟨verify_ok_of_valid pq hm bot_token raw hLen hraw h hHash hSig, ?_⟩
  intro raw2 h2 pre c c2 suf hraw2 hHash2 hstrip hdat hdat2 hcc
  have hne2 : h2 ≠ h := by
    intro hc
    rw [hc, hdat] at hdat2
    have hcs := List.append_cancel_left hdat2
    injection hcs with h1 _
    exact hcc h1
  have h2ne : h2 ≠ "" := by
    intro hc
    rw [hc] at hdat2
    simp at hdat2
  have hcmpne : computedHash hm bot_token (stripHash (dictOf (pq raw2))) ≠ h2 := by
    rw [hstrip, ← hSig]
    exact fun hc => hne2 hc.symm
  simp only [verify_init_data, if_neg hraw2, hHash2]
  rw [if_neg h2ne, if_neg hcmpne]

/-- C2: `verify_init_data` fails exactly when the raw payload is empty,
the parsed payload has no `hash` entry, or the computed signature differs
from the received `hash`; and every failure is an `HTTPException` with
status 401 (Unauthenticated). -/
theorem c2_unauthenticated_iff (pq : String → List (String × String))
    (hm : List Nat → List Nat → List Nat) (bot_token raw : String)
    (hLen : ∀ k msg, (hm k msg).length = 32) :
    (isErr (verify_init_data pq hm bot_token raw) = true
      ↔ raw = "" ∨ dictGet (dictOf (pq raw)) "hash" = none
        ∨ ∃ h, dictGet (dictOf (pq raw)) "hash" = some h
            ∧ computedHash hm bot_token (stripHash (dictOf (pq raw))) ≠ h)
    ∧ (∀ e, verify_init_data pq hm bot_token raw = .error e → e.status_code = 401) := by
  have hne : computedHash hm bot_token (stripHash (dictOf (pq raw))) ≠ "" := by
    apply hexEncode_ne_empty
    intro hnil
    have hl := hLen (hm (strBytes "WebAppData") (strBytes bot_token))
      (strBytes (dataCheckString (stripHash (dictOf (pq raw)))))
    rw [hnil] at hl
    exact absurd hl (by decide)
  by_cases hraw : raw = ""
  · have hv : verify_init_data pq hm bot_token raw = .error ⟨401, "no initData"⟩ := by
      simp [verify_init_data, hraw]
    refine ⟨?_, ?_⟩
    · rw [hv]
      exact iff_of_true rfl (Or.inl hraw)
    · intro e he
      rw [hv] at he
      injection he with h1
      rw [← h1]
  · cases hh : dictGet (dictOf (pq raw)) "hash" with
    | none =>
      have hv : verify_init_data pq hm bot_token raw = .error ⟨401, "no hash"⟩ := by
        simp [verify_init_data, hraw, hh]
      refine ⟨?_, ?_⟩
      · rw [hv]
        exact iff_of_true rfl (Or.inr (Or.inl rfl))
      · intro e he
        rw [hv] at he
        injection he with h1
        rw [← h1]
    | some h =>
      by_cases hhe : h = ""
      · have hv : verify_init_data pq hm bot_token raw = .error ⟨401, "no hash"⟩ := by
          simp [verify_init_data, hraw, hh, hhe]
        refine ⟨?_, ?_⟩
        · rw [hv]
          exact iff_of_true rfl (Or.inr (Or.inr ⟨h, rfl, by rw [hhe]; exact hne⟩))
        · intro e he
          rw [hv] at he
          injection he with h1
          rw [← h1]
      · by_cases hcmp : computedHash hm bot_token (stripHash (dictOf (pq raw))) = h
        · have hv : verify_init_data pq hm bot_token raw
              = .ok (userField (stripHash (dictOf (pq raw)))) := by
            simp only [verify_init_data, if_neg hraw, hh]
            rw [if_neg hhe, if_pos hcmp]
          refine ⟨?_, ?_⟩
          · rw [hv]
            apply iff_of_false (by simp [isErr])
            rintro (hc | hc | ⟨h0, hh0, hcne⟩)
            · exact hraw hc
            · exact Option.noConfusion hc
            · injection hh0 with h1
              rw [h1] at hcmp
              exact hcne hcmp
          · intro e he
            rw [hv] at he
            exact Except.noConfusion he
        · have hv : verify_init_data pq hm bot_token raw = .error ⟨401, "bad signature"⟩ := by
            simp only [verify_init_data, if_neg hraw, hh]
            rw [if_neg hhe, if_neg hcmp]
          refine ⟨?_, ?_⟩
          · rw [hv]
            exact iff_of_true rfl (Or.inr (Or.inr ⟨h, rfl, hcmp⟩))
          · intro e he
            rw [hv] at he
            injection he with h1
            rw [← h1]

/-- Identity object produced by `json.loads` on the text of the empty JSON
object: an object with no fields, embedded as the empty association list. -/
def emptyIdentity : List (String × String) := []

/-- C9: a validly signed payload with no `user` field (or an empty one)
passes verification and yields the text of the empty JSON object as the
`json.loads` argument; its parse is an identity object with no `id` key,
so routes that read the identity's id read a missing key. -/
theorem c9_missing_user (pq : String → List (String × String))
    (hm : List Nat → List Nat → List Nat) (bot_token raw : String)
    (hLen : ∀ k msg, (hm k msg).length = 32)
    (hraw : raw ≠ "") (h : String)
    (hHash : dictGet (dictOf (pq raw)) "hash" = some h)
    (hSig : h = computedHash hm bot_token (stripHash (dictOf (pq raw))))
    (hUser : dictGet (stripHash (dictOf (pq raw))) "user" = none
      ∨ dictGet (stripHash (dictOf (pq raw))) "user" = some "") :
    verify_init_data pq hm bot_token raw = .ok "\x7b\x7d"
    ∧ dictGet emptyIdentity "id" = none := by
  refine ⟨?_, rfl⟩
  rw [verify_ok_of_valid pq hm bot_token raw hLen hraw h hHash hSig]
  have huf : userField (stripHash (dictOf (pq raw))) = "\x7b\x7d" := by
    cases hUser with
    | inl hnone => simp [userField, hnone]
    | inr hempty => simp [userField, hempty]
  rw [huf]

/-- Demonstration HMAC digest primitive for the witnesses: a constant
32-byte digest. -/
def hmW : List Nat → List Nat → List Nat := fun _ _ => List.replicate 32 0

/-- Hex digest that `hmW` induces: 64 zero characters. -/
def z64 : String := "0000000000000000000000000000000000000000000000000000000000000000"

/-- The digest `z64` with its first character changed. -/
def z64x : String := "1000000000000000000000000000000000000000000000000000000000000000"

/-- Demonstration `parse_qsl` for the witnesses. -/
def pqW : String → List (String × String)
  | "A" => [("user", "u1"), ("hash", z64)]
  | "B" => [("user", "u1"), ("hash", z64x)]
  | "C" => [("user", "u1")]
  | _ => [("hash", z64)]

/-- C1 witness: a concrete validly signed payload verifies to its `user`
field, and the same payload with the first `hash` character changed is
rejected. -/
theorem c1_witness :
    verify_init_data pqW hmW "TOKEN" "A" = .ok "u1"
    ∧ verify_init_data pqW hmW "TOKEN" "B" = .error ⟨401, "bad signature"⟩ := by
  have H := c1_verify_valid pqW hmW "TOKEN" "A" (fun k msg => by simp [hmW])
    (by decide) z64 (by decide) (by decide)
  refine ⟨?_, ?_⟩
  · rw [H.1]
    decide
  · exact H.2 "B" z64x [] '0' '1' (List.replicate 63 '0') (by decide) (by decide)
      (by decide) (by decide) (by decide) (by decide)

/-- C2 witness: the empty payload and a payload without a `hash` field are
both rejected. -/
theorem c2_witness :
    isErr (verify_init_data pqW hmW "TOKEN" "") = true
    ∧ isErr (verify_init_data pqW hmW "TOKEN" "C") = true := by
  refine ⟨?_, ?_⟩
  · exact (c2_unauthenticated_iff pqW hmW "TOKEN" "" (fun k msg => by simp [hmW])).1.mpr
      (Or.inl rfl)
  · exact (c2_unauthenticated_iff pqW hmW "TOKEN" "C" (fun k msg => by simp [hmW])).1.mpr
      (Or.inr (Or.inl (by decide)))

/-- C9 witness: a validly signed payload carrying only `hash` verifies to
the empty-object text. -/
theorem c9_witness :
    verify_init_data pqW hmW "TOKEN" "D" = .ok "\x7b\x7d"
    ∧ dictGet emptyIdentity "id" = none :=
  c9_missing_user pqW hmW "TOKEN" "D" (fun k msg => by simp [hmW]) (by decide) z64
    (by decide) (by decide) (Or.inl (by decide))

/-! ## Claim C7: `calc_amount` -/

theorem roundHalfEvenQ_of_lt (q : ℚ) (f : ℤ) (hf : ⌊q⌋ = f) (hlt : q - f < 1/2) :
    roundHalfEvenQ q = f := by
  simp only [roundHalfEvenQ, hf]
  rw [if_pos hlt]

theorem roundHalfEvenQ_of_tie_even (q : ℚ) (f : ℤ) (hf : ⌊q⌋ = f) (htie : q - f = 1/2)
    (hev : f % 2 = 0) : roundHalfEvenQ q = f := by
  simp only [roundHalfEvenQ, hf]
  rw [if_neg (by rw [htie]; exact lt_irrefl _), if_neg (by rw [htie]; exact lt_irrefl _),
    if_pos hev]

theorem pymul_finite_zero_left (b : Dyadic) :
    pymul (.finite ⟨0, 0⟩) (.finite b) = .finite ⟨0, 0⟩ := by
  simp [pymul, dmul, fl, dyadicOverflows]

theorem pymul_finite_zero_right (a : Dyadic) :
    pymul (.finite a) (.finite ⟨0, 0⟩) = .finite ⟨0, 0⟩ := by
  simp [pymul, dmul, fl, dyadicOverflows]

/-- C7 counterexample: at days = 2^53 + 1 and seats = 1 the source's
binary64 evaluation returns 22517998136852480 (the conversion of
9007199254740993 to a float already rounds it to 9007199254740992), while
the claimed exact round-half-to-even formula yields 22517998136852482, so
`calc_amount` does not compute `round((75/30)*days*seats*(1-discount))`
exactly for every input. -/
theorem c7_counterexample :
    calc_amount 9007199254740993 1 = .ok 22517998136852480
    ∧ calcAmountSpec 9007199254740993 1 = 22517998136852482
    ∧ calc_amount 9007199254740993 1 ≠ .ok (calcAmountSpec 9007199254740993 1) := by
  have hcode : calc_amount 9007199254740993 1 = .ok 22517998136852480 := by decide
  have hspec : calcAmountSpec 9007199254740993 1 = 22517998136852482 := by
    have harg : calcAmountSpec 9007199254740993 1
        = roundHalfEvenQ (45035996273704965 / 2) := by
      unfold calcAmountSpec
      norm_num [specDiscount]
    rw [harg]
    exact roundHalfEvenQ_of_tie_even _ 22517998136852482
      (by rw [Int.floor_eq_iff]; norm_num) (by norm_num) (by decide)
  refine ⟨hcode, hspec, ?_⟩
  rw [hcode, hspec]
  decide

/-- C7 amended: the source computes the price in binary64 floating point;
this agrees with the exact round-half-to-even formula at the claimed
points, giving 75, 142, 202 at thirty, sixty, ninety days for one seat
(the latter two being exact halves resolved to the even integer).  With
days = 0 it returns 0 for every seat count whose int-to-float conversion
fits in a double, and raises OverflowError for every seat count whose
conversion overflows (absolute value at least 2^1024 after rounding) -
the exact formula gives 0 at days = 0 for every seat count - and for
|days*seats| beyond 2^53 the float evaluation can differ from the exact
formula even where it returns. -/
theorem c7_amended :
    calc_amount 30 1 = .ok 75 ∧ calc_amount 60 1 = .ok 142 ∧ calc_amount 90 1 = .ok 202
    ∧ (∀ seats : ℤ, dyadicOverflows (fl ⟨seats, 0⟩) = false → calc_amount 0 seats = .ok 0)
    ∧ (∀ seats : ℤ, dyadicOverflows (fl ⟨seats, 0⟩) = true →
        calc_amount 0 seats = .error .overflowError)
    ∧ calcAmountSpec 30 1 = 75 ∧ calcAmountSpec 60 1 = 142 ∧ calcAmountSpec 90 1 = 202
    ∧ (∀ seats : ℤ, calcAmountSpec 0 seats = 0) := by
  have h75 : flInt BASE_PRICE_30 = .ok ⟨75, 0⟩ := by decide
  have h0 : flInt 0 = .ok ⟨0, 0⟩ := by decide
  refine ⟨by decide, by decide, by decide, ?_, ?_, ?_, ?_, ?_, ?_⟩
  · intro s hs
    have hseat : flInt s = .ok (fl ⟨s, 0⟩) := by
      simp [flInt, hs]
    simp only [calc_amount, h75, h0, hseat]
    rw [pymul_finite_zero_right, pymul_finite_zero_left]
    rw [show pysub (.finite ⟨1, 0⟩) (.finite (DISCOUNT_BY_DAYS 0)) = .finite ⟨1, 0⟩ from
      by decide]
    rw [pymul_finite_zero_left]
    decide
  · intro s hs
    have hseat : flInt s = .error .overflowError := by
      simp [flInt, hs]
    simp only [calc_amount, h75, h0, hseat]
  · have harg : calcAmountSpec 30 1 = roundHalfEvenQ 75 := by
      unfold calcAmountSpec
      norm_num [specDiscount]
    rw [harg]
    exact roundHalfEvenQ_of_lt _ 75 (by rw [Int.floor_eq_iff]; norm_num) (by norm_num)
  · have harg : calcAmountSpec 60 1 = roundHalfEvenQ (285 / 2) := by
      unfold calcAmountSpec
      norm_num [specDiscount]
    rw [harg]
    exact roundHalfEvenQ_of_tie_even _ 142 (by rw [Int.floor_eq_iff]; norm_num)
      (by norm_num) (by decide)
  · have harg : calcAmountSpec 90 1 = roundHalfEvenQ (405 / 2) := by
      unfold calcAmountSpec
      norm_num [specDiscount]
    rw [harg]
    exact roundHalfEvenQ_of_tie_even _ 202 (by rw [Int.floor_eq_iff]; norm_num)
      (by norm_num) (by decide)
  · intro s
    have harg : calcAmountSpec 0 s = roundHalfEvenQ 0 := by
      unfold calcAmountSpec
      norm_num [specDiscount]
    rw [harg]
    exact roundHalfEvenQ_of_lt _ 0 (by norm_num) (by norm_num)

/-- C7 witness for the amended claim: with days = 0, the seat count 7
converts to float and the price is 0, while the seat count 2^1024 makes
the source raise OverflowError at the int-to-float conversion. -/
theorem c7_amended_witness :
    calc_amount 0 7 = .ok 0
    ∧ calc_amount 0 ((2 ^ 1024 : ℕ) : ℤ) = .error .overflowError := by
  constructor
  · exact c7_amended.2.2.2.1 7 (by decide)
  · exact c7_amended.2.2.2.2.1 ((2 ^ 1024 : ℕ) : ℤ) (by decide)
